import Mathlib

/-!
Verification of `trax/trax2keras.py`: an adapter (`FromTrax`) that wraps a
pure functional Trax layer as a stateful Keras layer.

Shallow embedding conventions:
* Python values flowing through `math_lib.nested_map` / `tf.nest` are modelled
  by the pytree type `Nested`.
* TF tensors and tensor shapes are modelled by `TFValue`: a tensor carries its
  static shape (a list of optional dimensions, `none` = unknown dimension)
  and an abstract payload; a `tf.TensorShape` carries only the dimensions.
* `base.EMPTY_WEIGHTS` (an identity-compared singleton) is modelled by the
  tagged variant `WeightsVal.empty`, following the spec's design note.
* Python exceptions are modelled by `Option`/explicit error results: a raising
  computation yields `none`, and the adapter's `call` returns the unchanged
  adapter together with `none` in that case (an exception leaves the object's
  cells as they were).
* The three `tf.Variable` cells created by `build` are the `Cells` record
  stored in the adapter state; `v.read_value()` and `v.assign(t)` become
  reading and functionally updating that record.
-/

namespace Trax2Keras

/-- Weights of a Trax layer: `base.EMPTY_WEIGHTS` is an identity-compared
singleton sentinel, modelled as a tagged variant per the spec's design note
(`Weights = Uninitialized | Present(value)`). -/
inductive WeightsVal (W : Type) where
  | empty : WeightsVal W
  | present : W → WeightsVal W
  deriving DecidableEq, Repr

/-- A TF value as seen by `_replace_none_batch`: a `tf.Tensor` (with its
static shape, `none` entries standing for unknown dimensions, and an abstract
payload), a `tf.TensorShape`, or any other Python value. -/
inductive TFValue (A : Type) where
  | tensor : List (Option Nat) → A → TFValue A
  | tensorShape : List (Option Nat) → TFValue A
  | other : A → TFValue A
  deriving DecidableEq, Repr

/-- A `trax.shapes.ShapeDtype` descriptor, as produced by
`tensor_shapes_to_shape_dtypes`. -/
structure ShapeDtype (D : Type) where
  shape : List (Option Nat)
  dtype : D
  deriving DecidableEq, Repr

/-- A pytree: the nested list/tuple structures traversed by
`math_lib.nested_map`. -/
inductive Nested (α : Type) where
  | leaf : α → Nested α
  | node : List (Nested α) → Nested α

mutual

/-- `math_lib.nested_map f`: apply `f` to every leaf of a pytree. -/
def Nested.map (f : α → β) : Nested α → Nested β
  | .leaf a => .leaf (f a)
  | .node cs => .node (Nested.mapList f cs)

/-- Children traversal of `Nested.map`. -/
def Nested.mapList (f : α → β) : List (Nested α) → List (Nested β)
  | [] => []
  | c :: cs => Nested.map f c :: Nested.mapList f cs

end

mutual

/-- `math_lib.nested_map f` where `f` may raise: the traversal succeeds only
when `f` succeeds on every leaf (a raise anywhere aborts the whole map). -/
def Nested.mapOption (f : α → Option β) : Nested α → Option (Nested β)
  | .leaf a => (f a).map .leaf
  | .node cs => (Nested.mapOptionList f cs).map .node

/-- Children traversal of `Nested.mapOption`. -/
def Nested.mapOptionList (f : α → Option β) :
    List (Nested α) → Option (List (Nested β))
  | [] => some []
  | c :: cs => do
      let b ← Nested.mapOption f c
      let bs ← Nested.mapOptionList f cs
      pure (b :: bs)

end

/-- `_replace_none_batch(x, batch_size)` from `trax2keras.py`:

* if `batch_size is None`, return `x` unchanged;
* if `x` is a `tf.Tensor` whose first static dimension is unknown, refine the
  static shape in place (`x.set_shape([batch_size] + x.shape[1:])`) and
  return `x`;
* if `x` is a `tf.TensorShape` whose first dimension is unknown, return
  `[batch_size] + x[1:]`;
* otherwise return `x` unchanged.

Indexing `x.shape[0]` (resp. `x[0]`) on a rank-0 tensor (resp. shape) raises
`IndexError` in Python; that raise is modelled by the `none` result. -/
def replace_none_batch (x : TFValue A) (batchSize : Option Nat) :
    Option (TFValue A) :=
  match batchSize with
  | none => some x
  | some b =>
    match x with
    | .tensor [] _ => none
    | .tensor (none :: rest) a => some (.tensor (some b :: rest) a)
    | .tensor (some d :: rest) a => some (.tensor (some d :: rest) a)
    | .tensorShape [] => none
    | .tensorShape (none :: rest) => some (.tensorShape (some b :: rest))
    | .tensorShape (some d :: rest) => some (.tensorShape (some d :: rest))
    | .other a => some (.other a)

/-- `tensor_shapes_to_shape_dtypes(shapes, dtype)`: nested-map of
`lambda s: shapes_lib.ShapeDtype(s.as_list(), dtype)`.  `s.as_list()` exists
only on tensor shapes; on any other value the lambda raises
(`AttributeError`), modelled by `none`. -/
def tensor_shapes_to_shape_dtypes (shapes : Nested (TFValue A)) (dtype : D) :
    Option (Nested (ShapeDtype D)) :=
  shapes.mapOption fun s =>
    match s with
    | .tensorShape dims => some ⟨dims, dtype⟩
    | _ => none

/-- Modelled from the spec: `v.read_value()` on each cell reads the stored
value without mutating it; in the functional embedding the cells are plain
values, so reading is the identity. -/
def read_values (x : α) : α := x

/-- Modelled from the spec: `np.asarray` conversion into the wrapped layer's
array representation is a representation change performed by the out-of-scope
numeric engine; at the value level it is the identity. -/
def to_arrays (x : α) : α := x

/-- Modelled from the spec: `tf.convert_to_tensor` conversion back into the
host framework's tensor representation is a representation change performed
by the out-of-scope numeric engine; at the value level it is the identity. -/
def to_tensors (x : α) : α := x

/-- The wrapped Trax layer (`trax.layers.base.Layer`), an external
collaborator of `trax2keras.py`.  Per the spec it exposes readable `weights`
and `state` attributes, an internal random-key field (the one
`_set_rng_recursive` overwrites and `init` consumes), a deterministic
`init(shapeSpec) -> (weights, state)` function of that key and the spec, and
a pure forward function `pure_fn(inputs, weights, state, rng) ->
(outputs, new_state)` that may raise (the `none` result). -/
structure TraxLayer (A D W S R O : Type) where
  weights : WeightsVal W
  state : S
  rng : R
  initFn : R → Nested (ShapeDtype D) → WeightsVal W × S
  pure_fn : Nested (TFValue A) → WeightsVal W → S → R → Option (O × S)

/-- Modelled from the spec: `Layer._set_rng_recursive(key)` propagates `key`
recursively into the wrapped layer, overwriting any internal key state; its
definition lives in `trax.layers.base`, outside this file. -/
def TraxLayer.set_rng_recursive (l : TraxLayer A D W S R O) (key : R) :
    TraxLayer A D W S R O :=
  { l with rng := key }

/-- The three persistent `tf.Variable` cells materialized by
`FromTrax.build`: `self._weights` (trainable), `self._state` and `self._rng`
(non-trainable). -/
structure Cells (W S R : Type) where
  weights : WeightsVal W
  state : S
  rng : R

/-- The adapter state of a `FromTrax` Keras layer: the wrapped Trax layer,
the constructor configuration, and (once `build` has run) the three variable
cells. -/
structure FromTrax (A D W S R O : Type) where
  trax_layer : TraxLayer A D W S R O
  batch_size : Option Nat
  initializer_rng : R
  forward_rng_init : R
  rng_updater : R → R
  dtype : D
  cells : Option (Cells W S R)

/-- `FromTrax.__init__`: stores the configuration, defaulting
`initializer_rng` and `rng` to `trax.math.random.get_prng(0)` (an external
deterministic key, passed here as `prng0`) and `rng_updater` to the identity.
No cells exist yet and the wrapped layer is untouched. -/
def FromTrax.make (trax_layer : TraxLayer A D W S R O)
    (batch_size : Option Nat) (initializer_rng : Option R) (rng : Option R)
    (rng_updater : Option (R → R)) (dtype : D) (prng0 : R) :
    FromTrax A D W S R O :=
  { trax_layer := trax_layer
    batch_size := batch_size
    initializer_rng := initializer_rng.getD prng0
    forward_rng_init := rng.getD prng0
    rng_updater := rng_updater.getD id
    dtype := dtype
    cells := none }

/-- `FromTrax.build(input_shape)`.  Following the source:

* if the wrapped layer's weights are the `EMPTY_WEIGHTS` sentinel
  (`is`-compared, i.e. the `.empty` variant): call `_set_rng_recursive`
  with `self._initializer_rng`, sanitize the input shape with
  `_replace_none_batch` under `self._batch_size`, convert it with
  `tensor_shapes_to_shape_dtypes` under `self.dtype`, and call the layer's
  `init` on the result to obtain `(weights, state)`;
* otherwise reuse the layer's existing `weights` and `state` as-is;
* box `weights`, `state` and `self._forward_rng_init` into the three cells.

The returned list records the keys passed to `_set_rng_recursive`, so that
claims about how often the wrapped layer is mutated are statable; `none`
models a raise inside the sanitation or spec conversion. -/
def FromTrax.build (a : FromTrax A D W S R O)
    (input_shape : Nested (TFValue A)) :
    Option (FromTrax A D W S R O × List R) :=
  match a.trax_layer.weights with
  | .empty =>
      let layer := a.trax_layer.set_rng_recursive a.initializer_rng
      match input_shape.mapOption
          (fun x => replace_none_batch x a.batch_size) with
      | none => none
      | some sanitized_input_shape =>
          match tensor_shapes_to_shape_dtypes sanitized_input_shape a.dtype with
          | none => none
          | some spec =>
              let ws := layer.initFn layer.rng spec
              some ({ a with
                        trax_layer := layer
                        cells := some ⟨ws.1, ws.2, a.forward_rng_init⟩ },
                    [a.initializer_rng])
  | .present _ =>
      some ({ a with
                cells := some ⟨a.trax_layer.weights, a.trax_layer.state,
                               a.forward_rng_init⟩ },
            [])

/-- `FromTrax.call(inputs)`.  Following the source:

* sanitize `inputs` with `_replace_none_batch` under `self._batch_size`;
* read the current values of the weights/state/rng cells and convert them
  (with the inputs) to arrays;
* invoke `pure_fn(inputs, weights, state, rng)`;
* assign `new_state` to the state cell and `rng_updater(rng)` to the rng
  cell;
* convert the outputs to tensors and return them.

A raise anywhere (sanitation failure, unbuilt layer, or `pure_fn` raising)
aborts the call before the cell assignments: the result is `(none, a)`, the
adapter unchanged.  On success the result is the outputs together with the
adapter whose state and rng cells have been reassigned. -/
def FromTrax.call (a : FromTrax A D W S R O) (inputs : Nested (TFValue A)) :
    Option O × FromTrax A D W S R O :=
  match a.cells with
  | none => (none, a)
  | some cells =>
      match inputs.mapOption (fun x => replace_none_batch x a.batch_size) with
      | none => (none, a)
      | some inputs' =>
          let weights := to_arrays (read_values cells.weights)
          let state := to_arrays (read_values cells.state)
          let rng := to_arrays (read_values cells.rng)
          match a.trax_layer.pure_fn inputs' weights state rng with
          | none => (none, a)
          | some (outputs, new_state) =>
              (some (to_tensors outputs),
               { a with cells := some ⟨cells.weights, new_state,
                                      a.rng_updater rng⟩ })

/-- N sequential invocations of `call`, feeding each input in turn; each
invocation acts on the adapter state left by the previous one (a raising
invocation leaves the adapter unchanged, as in Python). -/
def FromTrax.callN (a : FromTrax A D W S R O) :
    List (Nested (TFValue A)) → FromTrax A D W S R O
  | [] => a
  | i :: is => FromTrax.callN (a.call i).2 is

/-- Whether every invocation in a sequence of `call`s returns successfully
(no raise). -/
def FromTrax.callsOk (a : FromTrax A D W S R O) :
    List (Nested (TFValue A)) → Bool
  | [] => true
  | i :: is => (a.call i).1.isSome && FromTrax.callsOk (a.call i).2 is

/-- Reference function for the state-threading claim: apply the wrapped
layer's pure forward function to a list of (already sanitized) inputs
outside the adapter, threading each application's new state into the next
and updating the key with `f` between applications, so that the k-th
application uses the key `f^[k-1] r`. -/
def threadPure (pf : Nested (TFValue A) → WeightsVal W → S → R → Option (O × S))
    (f : R → R) (w : WeightsVal W) :
    List (Nested (TFValue A)) → S → R → Option S
  | [], s, _ => some s
  | i :: is, s, r =>
      match pf i w s r with
      | none => none
      | some (_, s') => threadPure pf f w is s' (f r)

/-- Spec-side description for the round-trip substitution claim: the same
value with its batch (first) dimension explicitly set to `b` wherever it was
unknown. -/
def withExplicitBatch (b : Nat) : TFValue A → TFValue A
  | .tensor (none :: rest) a => .tensor (some b :: rest) a
  | .tensorShape (none :: rest) => .tensorShape (some b :: rest)
  | x => x

/-- A concrete uninitialized Trax layer over `Nat` data, used to evaluate
the claims on explicit inputs.  Its forward function raises on the input
`leaf (other 0)` and otherwise returns output `s + r` and new state
`s + r + 1`. -/
def witLayer : TraxLayer Nat Nat Nat Nat Nat Nat where
  weights := .empty
  state := 0
  rng := 9
  initFn := fun r _ => (.present (r + 1), r + 2)
  pure_fn := fun i _ s r =>
    match i with
    | .leaf (.other 0) => none
    | _ => some (s + r, s + r + 1)

/-- `witLayer` with pre-existing weights and state. -/
def witLayerP : TraxLayer Nat Nat Nat Nat Nat Nat :=
  { witLayer with weights := .present 3, state := 4 }

/-- A concrete stateless Trax layer: its `init` legitimately returns the
no-weights sentinel. -/
def witLayerS : TraxLayer Nat Nat Nat Nat Nat Nat where
  weights := .empty
  state := 0
  rng := 9
  initFn := fun r _ => (.empty, r + 2)
  pure_fn := fun _ _ s r => some (s + r, s + r + 1)

/-- A concrete input-shape pytree: one leaf tensor shape `[2]`. -/
def shp : Nested (TFValue Nat) := .leaf (.tensorShape [some 2])

/-- Freshly constructed adapter around `witLayer`: no batch override,
initializer key 5, forward key 1, key updater `Nat.succ`, dtype 0. -/
def witAdapter : FromTrax Nat Nat Nat Nat Nat Nat :=
  ⟨witLayer, none, 5, 1, Nat.succ, 0, none⟩

/-- Freshly constructed adapter around `witLayerP`. -/
def witAdapterP : FromTrax Nat Nat Nat Nat Nat Nat :=
  ⟨witLayerP, none, 5, 1, Nat.succ, 0, none⟩

/-- Freshly constructed adapter around `witLayerS`. -/
def witAdapterS : FromTrax Nat Nat Nat Nat Nat Nat :=
  ⟨witLayerS, none, 5, 1, Nat.succ, 0, none⟩

/-- Freshly constructed adapter around `witLayerP` with batch override 2. -/
def witAdapterB : FromTrax Nat Nat Nat Nat Nat Nat :=
  ⟨witLayerP, some 2, 5, 1, Nat.succ, 0, none⟩

/-- The adapter `witAdapter.build shp` produces. -/
def witB : FromTrax Nat Nat Nat Nat Nat Nat :=
  { witAdapter with
      trax_layer := { witLayer with rng := 5 }
      cells := some ⟨.present 6, 7, 1⟩ }

/-- The adapter `witAdapterP.build shp` produces. -/
def witBP : FromTrax Nat Nat Nat Nat Nat Nat :=
  { witAdapterP with cells := some ⟨.present 3, 4, 1⟩ }

/-- The adapter `witAdapterS.build shp` produces. -/
def witBS : FromTrax Nat Nat Nat Nat Nat Nat :=
  { witAdapterS with
      trax_layer := { witLayerS with rng := 5 }
      cells := some ⟨.empty, 7, 1⟩ }

/-- Freshly constructed adapter around `witLayerP` with the identity key
updater instead of `Nat.succ`. -/
def witAdapterP2 : FromTrax Nat Nat Nat Nat Nat Nat :=
  ⟨witLayerP, none, 5, 1, id, 0, none⟩

/-- The adapter `witAdapterP2.build shp` produces. -/
def witBP2 : FromTrax Nat Nat Nat Nat Nat Nat :=
  { witAdapterP2 with cells := some ⟨.present 3, 4, 1⟩ }

/-- A built adapter with batch override 2 around `witLayerP`. -/
def witBB : FromTrax Nat Nat Nat Nat Nat Nat :=
  { witAdapterB with cells := some ⟨.present 3, 4, 1⟩ }

/-- Strong induction over pytrees: membership-based induction hypothesis for
node children. -/
theorem Nested.strongInd {P : Nested α → Prop} (hl : ∀ a, P (.leaf a))
    (hn : ∀ cs, (∀ c ∈ cs, P c) → P (.node cs)) : ∀ n, P n
  | .leaf a => hl a
  | .node cs => hn cs fun c hc =>
      have : sizeOf c < sizeOf (Nested.node cs) := by
        have := List.sizeOf_lt_of_mem hc
        simp only [Nested.node.sizeOf_spec]
        omega
      Nested.strongInd hl hn c

/-- A successful `call` step, fully described: when the adapter is built, the
inputs sanitize, and `pure_fn` returns, `call` returns the outputs and the
adapter with only the state and rng cells reassigned. -/
theorem FromTrax.call_success (a : FromTrax A D W S R O)
    (i j : Nested (TFValue A)) (w : WeightsVal W) (s s' : S) (r : R) (o : O)
    (hc : a.cells = some ⟨w, s, r⟩)
    (hj : i.mapOption (fun x => replace_none_batch x a.batch_size) = some j)
    (hp : a.trax_layer.pure_fn j w s r = some (o, s')) :
    a.call i = (some o, { a with cells := some ⟨w, s', a.rng_updater r⟩ }) := by
  simp only [FromTrax.call, hc, hj, read_values, to_arrays, to_tensors, hp]

/-- Inversion of a successful `call`: if the first component is `some`, the
adapter was built, the inputs sanitized, `pure_fn` returned, and the result
adapter differs from `a` only in the state and rng cells. -/
theorem FromTrax.call_isSome_inv (a : FromTrax A D W S R O)
    (i : Nested (TFValue A)) (h : (a.call i).1.isSome = true) :
    ∃ (c : Cells W S R) (j : Nested (TFValue A)) (o : O) (s' : S),
      a.cells = some c ∧
      i.mapOption (fun x => replace_none_batch x a.batch_size) = some j ∧
      a.trax_layer.pure_fn j c.weights c.state c.rng = some (o, s') ∧
      a.call i = (some o,
        { a with cells := some ⟨c.weights, s', a.rng_updater c.rng⟩ }) := by
  rcases hc : a.cells with _ | c
  · simp [FromTrax.call, hc] at h
  · rcases hj : i.mapOption (fun x => replace_none_batch x a.batch_size) with
      _ | j
    · simp [FromTrax.call, hc, hj] at h
    · rcases hp : a.trax_layer.pure_fn j c.weights c.state c.rng with _ | os
      · simp [FromTrax.call, hc, hj, read_values, to_arrays, hp] at h
      · exact ⟨c, j, os.1, os.2, rfl, rfl, by rw [hp], by
          simp [FromTrax.call, hc, hj, read_values, to_arrays, to_tensors, hp]⟩

/-- Rebuilding an adapter with its own cells is the identity. -/
theorem FromTrax.with_cells_self (a : FromTrax A D W S R O)
    (c : Option (Cells W S R)) (h : a.cells = c) :
    { a with cells := c } = a := by
  cases a; subst h; rfl

/-- Threading lemma: when every input sanitizes and the pure forward
function succeeds at every step, `N` sequential `call`s leave the adapter
with the weights cell untouched, the state cell holding the externally
threaded state, and the rng cell holding the `N`-fold updated forward key. -/
theorem FromTrax.callN_thread :
    ∀ (xs ys : List (Nested (TFValue A))) (a : FromTrax A D W S R O)
      (w : WeightsVal W) (s0 sN : S) (r0 : R),
      a.cells = some ⟨w, s0, r0⟩ →
      xs.mapM (fun i => i.mapOption (fun x => replace_none_batch x a.batch_size))
        = some ys →
      threadPure a.trax_layer.pure_fn a.rng_updater w ys s0 r0 = some sN →
      a.callN xs = { a with cells := some ⟨w, sN, a.rng_updater^[xs.length] r0⟩ }
  | [], ys, a, w, s0, sN, r0, hc, hm, ht => by
      simp only [List.mapM_nil, pure, Option.some.injEq] at hm
      subst hm
      simp only [threadPure, Option.some.injEq] at ht
      subst ht
      simpa [FromTrax.callN] using
        (FromTrax.with_cells_self a (some ⟨w, s0, r0⟩) hc).symm
  | i :: is, ys, a, w, s0, sN, r0, hc, hm, ht => by
      rw [List.mapM_cons] at hm
      rcases hj : i.mapOption (fun x => replace_none_batch x a.batch_size) with
        _ | j
      · rw [hj] at hm; simp at hm
      · rw [hj] at hm
        rcases hm2 : is.mapM
            (fun i => i.mapOption (fun x => replace_none_batch x a.batch_size)) with
          _ | js
        · rw [hm2] at hm; simp at hm
        · rw [hm2] at hm
          have hm3 : j :: js = ys := Option.some.inj hm
          subst hm3
          rw [threadPure] at ht
          rcases hp : a.trax_layer.pure_fn j w s0 r0 with _ | os
          · rw [hp] at ht; simp at ht
          · rw [hp] at ht
            have hcall := FromTrax.call_success a i j w s0 os.2 r0 os.1 hc hj
              (by rw [hp])
            have ih := FromTrax.callN_thread is js
              { a with cells := some ⟨w, os.2, a.rng_updater r0⟩ }
              w os.2 sN (a.rng_updater r0) rfl hm2 ht
            simp only [FromTrax.callN, hcall, List.length_cons]
            rw [ih, Function.iterate_succ_apply]

/-- When every invocation in a run succeeds, `N` calls leave the weights
cell untouched, some state in the state cell, and the `N`-fold updated
forward key in the rng cell — whatever the inputs were. -/
theorem FromTrax.callN_ok_shape :
    ∀ (xs : List (Nested (TFValue A))) (a : FromTrax A D W S R O)
      (w : WeightsVal W) (s0 : S) (r0 : R),
      a.cells = some ⟨w, s0, r0⟩ → a.callsOk xs = true →
      ∃ sN, a.callN xs
        = { a with cells := some ⟨w, sN, a.rng_updater^[xs.length] r0⟩ }
  | [], a, w, s0, r0, hc, _ => by
      exact ⟨s0, by
        simpa [FromTrax.callN] using
          (FromTrax.with_cells_self a (some ⟨w, s0, r0⟩) hc).symm⟩
  | i :: is, a, w, s0, r0, hc, hok => by
      rw [FromTrax.callsOk, Bool.and_eq_true] at hok
      obtain ⟨c, j, o, s', hc', hj, hp, heq⟩ :=
        FromTrax.call_isSome_inv a i hok.1
      rw [hc'] at hc
      have hcw : c = ⟨w, s0, r0⟩ := Option.some.inj hc
      subst hcw
      have hok2 := hok.2
      rw [heq] at hok2
      obtain ⟨sN, ih⟩ := FromTrax.callN_ok_shape is
        { a with cells := some ⟨w, s', a.rng_updater r0⟩ } w s' (a.rng_updater r0)
        rfl hok2
      refine ⟨sN, ?_⟩
      simp only [FromTrax.callN, heq, List.length_cons]
      rw [ih, Function.iterate_succ_apply]

/-- The uninitialized-weights branch of `build`, fully described. -/
theorem FromTrax.build_empty (a : FromTrax A D W S R O)
    (sh sanitized : Nested (TFValue A)) (spec : Nested (ShapeDtype D))
    (he : a.trax_layer.weights = .empty)
    (hs : sh.mapOption (fun x => replace_none_batch x a.batch_size)
          = some sanitized)
    (ht : tensor_shapes_to_shape_dtypes sanitized a.dtype = some spec) :
    a.build sh = some
      ({ a with
           trax_layer := a.trax_layer.set_rng_recursive a.initializer_rng
           cells := some ⟨(a.trax_layer.initFn a.initializer_rng spec).1,
                          (a.trax_layer.initFn a.initializer_rng spec).2,
                          a.forward_rng_init⟩ },
       [a.initializer_rng]) := by
  simp only [FromTrax.build, he, hs, ht, TraxLayer.set_rng_recursive]

/-- The pre-existing-weights branch of `build`, fully described: the shape
argument is not even inspected, `init` is not called, the key setter is not
called, and the existing weights and state are boxed as-is. -/
theorem FromTrax.build_present (a : FromTrax A D W S R O)
    (sh : Nested (TFValue A)) (w : W)
    (he : a.trax_layer.weights = .present w) :
    a.build sh = some
      ({ a with
           cells := some ⟨a.trax_layer.weights, a.trax_layer.state,
                          a.forward_rng_init⟩ },
       []) := by
  simp only [FromTrax.build, he]

/-- A raise during input-shape sanitation aborts `build`. -/
theorem FromTrax.build_empty_fail_sanitize (a : FromTrax A D W S R O)
    (sh : Nested (TFValue A))
    (he : a.trax_layer.weights = .empty)
    (hs : sh.mapOption (fun x => replace_none_batch x a.batch_size) = none) :
    a.build sh = none := by
  simp only [FromTrax.build, he, hs]

/-- A raise during shape-spec conversion aborts `build`. -/
theorem FromTrax.build_empty_fail_spec (a : FromTrax A D W S R O)
    (sh sanitized : Nested (TFValue A))
    (he : a.trax_layer.weights = .empty)
    (hs : sh.mapOption (fun x => replace_none_batch x a.batch_size)
          = some sanitized)
    (ht : tensor_shapes_to_shape_dtypes sanitized a.dtype = none) :
    a.build sh = none := by
  simp only [FromTrax.build, he, hs, ht]

/-- Inversion of a successful `build`: it took one of the two branches. -/
theorem FromTrax.build_inv (a b : FromTrax A D W S R O)
    (sh : Nested (TFValue A)) (ks : List R)
    (h : a.build sh = some (b, ks)) :
    (∃ sanitized spec,
        a.trax_layer.weights = .empty ∧
        sh.mapOption (fun x => replace_none_batch x a.batch_size)
          = some sanitized ∧
        tensor_shapes_to_shape_dtypes sanitized a.dtype = some spec ∧
        b = { a with
                trax_layer := a.trax_layer.set_rng_recursive a.initializer_rng
                cells := some ⟨(a.trax_layer.initFn a.initializer_rng spec).1,
                               (a.trax_layer.initFn a.initializer_rng spec).2,
                               a.forward_rng_init⟩ } ∧
        ks = [a.initializer_rng]) ∨
    (∃ w, a.trax_layer.weights = .present w ∧
        b = { a with
                cells := some ⟨a.trax_layer.weights, a.trax_layer.state,
                               a.forward_rng_init⟩ } ∧
        ks = []) := by
  rcases he : a.trax_layer.weights with _ | w
  · rcases hs : sh.mapOption (fun x => replace_none_batch x a.batch_size) with
      _ | sanitized
    · rw [FromTrax.build_empty_fail_sanitize a sh he hs] at h; exact absurd h
        (by simp)
    · rcases ht : tensor_shapes_to_shape_dtypes sanitized a.dtype with _ | spec
      · rw [FromTrax.build_empty_fail_spec a sh sanitized he hs ht] at h
        exact absurd h (by simp)
      · rw [FromTrax.build_empty a sh sanitized spec he hs ht] at h
        obtain ⟨h1, h2⟩ := Prod.mk.injEq .. ▸ Option.some.inj h
        exact Or.inl ⟨sanitized, spec, rfl, rfl, ht, h1.symm, h2.symm⟩
  · rw [FromTrax.build_present a sh w he, he] at h
    obtain ⟨h1, h2⟩ := Prod.mk.injEq .. ▸ Option.some.inj h
    exact Or.inr ⟨w, rfl, h1.symm, h2.symm⟩

/-- `_replace_none_batch` under override `b` gives the same result on a
value and on its explicit-batch version. -/
theorem replace_none_batch_withExplicitBatch (b : Nat) (x : TFValue A) :
    replace_none_batch (withExplicitBatch b x) (some b)
      = replace_none_batch x (some b) := by
  rcases x with ⟨sh, a⟩ | sh | a
  · rcases sh with _ | ⟨_ | d, rest⟩ <;> rfl
  · rcases sh with _ | ⟨_ | d, rest⟩ <;> rfl
  · rfl

/-- Congruence for the children traversal of `Nested.mapOption` after a
leaf-level `map`. -/
theorem Nested.mapOptionList_map_congr (f : α → Option β) (g : α → α) :
    ∀ cs : List (Nested α),
      (∀ c ∈ cs, (Nested.map g c).mapOption f = c.mapOption f) →
      Nested.mapOptionList f (Nested.mapList g cs)
        = Nested.mapOptionList f cs
  | [], _ => rfl
  | c :: cs, h => by
      simp only [Nested.mapList, Nested.mapOptionList]
      rw [h c (List.mem_cons_self ..),
        Nested.mapOptionList_map_congr f g cs
          fun c hc => h c (List.mem_cons_of_mem _ hc)]

/-- If `f` cannot tell a leaf from its `g`-image, then `mapOption f` cannot
tell a pytree from its `map g`-image. -/
theorem Nested.mapOption_map (f : α → Option β) (g : α → α)
    (hfg : ∀ x, f (g x) = f x) (n : Nested α) :
    (Nested.map g n).mapOption f = n.mapOption f := by
  induction n using Nested.strongInd with
  | hl a => simp only [Nested.map, Nested.mapOption, hfg]
  | hn cs ih =>
      simp only [Nested.map, Nested.mapOption]
      rw [Nested.mapOptionList_map_congr f g cs ih]

/-- The outputs and the new state produced by `call` do not depend on the
key updater: only the rng cell does. -/
theorem FromTrax.call_mk_state (tl : TraxLayer A D W S R O)
    (bs : Option Nat) (ir fr : R) (f1 f2 : R → R) (dt : D)
    (cl : Option (Cells W S R)) (i : Nested (TFValue A)) :
    ((FromTrax.mk tl bs ir fr f1 dt cl).call i).1
      = ((FromTrax.mk tl bs ir fr f2 dt cl).call i).1
    ∧ ((((FromTrax.mk tl bs ir fr f1 dt cl).call i).2).cells).map Cells.state
      = ((((FromTrax.mk tl bs ir fr f2 dt cl).call i).2).cells).map
          Cells.state := by
  rcases cl with _ | c
  · exact ⟨rfl, rfl⟩
  · rcases hj : i.mapOption (fun x => replace_none_batch x bs) with _ | j
    · simp [FromTrax.call, hj]
    · rcases hp : tl.pure_fn j c.weights c.state c.rng with _ | os
      · simp [FromTrax.call, hj, read_values, to_arrays, hp]
      · simp [FromTrax.call, hj, read_values, to_arrays, to_tensors, hp]

/-- C1: for every built adapter and every `N ≥ 0`, after `N` sequential
invocations of `call` (on inputs that sanitize to `ys`, with every forward
application succeeding), the state cell equals the state obtained by
applying the wrapped layer's pure forward function `N` times outside the
adapter, threading each new state into the next and using the key sequence
`r0, f r0, f (f r0), …`; the weights cell is unchanged and the rng cell
holds `f^[N] r0`. -/
theorem C1_state_threading (a : FromTrax A D W S R O) (w : WeightsVal W)
    (s0 sN : S) (r0 : R) (xs ys : List (Nested (TFValue A)))
    (hc : a.cells = some ⟨w, s0, r0⟩)
    (hm : xs.mapM
        (fun i => i.mapOption (fun x => replace_none_batch x a.batch_size))
      = some ys)
    (ht : threadPure a.trax_layer.pure_fn a.rng_updater w ys s0 r0 = some sN) :
    (a.callN xs).cells = some ⟨w, sN, a.rng_updater^[xs.length] r0⟩ := by
  rw [FromTrax.callN_thread xs ys a w s0 sN r0 hc hm ht]

/-- Witness for C1: two successful calls on the concretely built adapter
`witB` thread the state `7 ↦ 9 ↦ 12` and the key `1 ↦ 2 ↦ 3`. -/
theorem C1_state_threading_witness :
    (FromTrax.callN witB
        [Nested.leaf (TFValue.other 1), Nested.leaf (TFValue.other 1)]).cells
      = some ⟨.present 6, 12, 3⟩ :=
  C1_state_threading witB (.present 6) 7 12 1
    [Nested.leaf (TFValue.other 1), Nested.leaf (TFValue.other 1)]
    [Nested.leaf (TFValue.other 1), Nested.leaf (TFValue.other 1)]
    rfl rfl rfl

/-- C6: if during `call` the wrapped layer's pure forward function raises,
the error propagates to the caller (`none` output) and the state and rng
cells — indeed the whole adapter — are left unmodified, because the cell
writes happen only after a successful forward return. -/
theorem C6_error_leaves_cells (a : FromTrax A D W S R O)
    (i j : Nested (TFValue A)) (w : WeightsVal W) (s : S) (r : R)
    (hc : a.cells = some ⟨w, s, r⟩)
    (hj : i.mapOption (fun x => replace_none_batch x a.batch_size) = some j)
    (hp : a.trax_layer.pure_fn j w s r = none) :
    a.call i = (none, a) := by
  simp only [FromTrax.call, hc, hj, read_values, to_arrays, hp]

/-- Witness for C6: the poison input `leaf (other 0)` makes `witB`'s forward
function raise; `call` returns no output and `witB` unchanged. -/
theorem C6_error_leaves_cells_witness :
    witB.call (Nested.leaf (TFValue.other 0)) = (none, witB) :=
  C6_error_leaves_cells witB (Nested.leaf (TFValue.other 0))
    (Nested.leaf (TFValue.other 0)) (.present 6) 7 1 rfl rfl rfl

/-- C9 (amended): `_replace_none_batch` is the identity when no override is
configured, when the value is neither a tensor nor a tensor shape, or when
the first dimension exists and is known; under an override it substitutes
the override for an unknown first dimension, leaving the remaining
dimensions and the payload unchanged; and — the amendment — under an
override it raises (`IndexError`) on a rank-0 tensor or tensor shape
instead of returning it unchanged. -/
theorem C9_replace_none_batch_cases (bs : Option Nat) (x : TFValue A) :
    (bs = none → replace_none_batch x bs = some x) ∧
    (∀ a, x = .other a → replace_none_batch x bs = some x) ∧
    (∀ d rest a, x = .tensor (some d :: rest) a →
      replace_none_batch x bs = some x) ∧
    (∀ d rest, x = .tensorShape (some d :: rest) →
      replace_none_batch x bs = some x) ∧
    (∀ b, bs = some b → ∀ rest a, x = .tensor (none :: rest) a →
      replace_none_batch x bs = some (.tensor (some b :: rest) a)) ∧
    (∀ b, bs = some b → ∀ rest, x = .tensorShape (none :: rest) →
      replace_none_batch x bs = some (.tensorShape (some b :: rest))) ∧
    (∀ b, bs = some b → ∀ a, x = .tensor [] a →
      replace_none_batch x bs = none) ∧
    (∀ b, bs = some b → x = .tensorShape [] →
      replace_none_batch x bs = none) := by
  refine ⟨?_, ?_, ?_, ?_, ?_, ?_, ?_, ?_⟩
  · rintro rfl; rcases x with ⟨sh, a⟩ | sh | a <;> rfl
  · rintro a rfl; rcases bs with _ | b <;> rfl
  · rintro d rest a rfl; rcases bs with _ | b <;> rfl
  · rintro d rest rfl; rcases bs with _ | b <;> rfl
  · rintro b rfl rest a rfl; rfl
  · rintro b rfl rest rfl; rfl
  · rintro b rfl a rfl; rfl
  · rintro b rfl rfl; rfl

/-- Witness for C9: a tensor of static shape `[None, 3]` under override 2
becomes a tensor of static shape `[2, 3]` with its payload untouched. -/
theorem C9_replace_none_batch_cases_witness :
    replace_none_batch (TFValue.tensor [none, some 3] (0 : Nat)) (some 2)
      = some (.tensor [some 2, some 3] 0) :=
  (C9_replace_none_batch_cases (some 2)
    (TFValue.tensor [none, some 3] (0 : Nat))).2.2.2.2.1 2 rfl [some 3] 0 rfl

/-- Counterexample for C9 as stated: under an override, a rank-0 tensor
shape is in none of the claim's two substitution cases, so the claim asserts
the helper returns it unchanged — but the code raises `IndexError`
(evaluating `x[0]` on an empty shape), modelled by `none`. -/
theorem C9_replace_none_batch_cases_counterexample :
    replace_none_batch (TFValue.tensorShape [] : TFValue Nat) (some 2) = none
    ∧ replace_none_batch (TFValue.tensorShape [] : TFValue Nat) (some 2)
        ≠ some (TFValue.tensorShape []) := by
  constructor
  · rfl
  · decide

/-- C10 (amended): the rng cell's evolution is independent of the inputs
provided every invocation completes successfully: after `N` successful
calls the rng cell holds `f^[N] r0`, so two all-successful runs of equal
length leave identical rng cells whatever their inputs were. -/
theorem C10_rng_input_independence (a : FromTrax A D W S R O)
    (w : WeightsVal W) (s0 : S) (r0 : R)
    (xs ys : List (Nested (TFValue A)))
    (hc : a.cells = some ⟨w, s0, r0⟩)
    (hx : a.callsOk xs = true) (hy : a.callsOk ys = true)
    (hlen : xs.length = ys.length) :
    ((a.callN xs).cells).map Cells.rng = some (a.rng_updater^[xs.length] r0)
    ∧ ((a.callN xs).cells).map Cells.rng
        = ((a.callN ys).cells).map Cells.rng := by
  obtain ⟨sx, hxs⟩ := FromTrax.callN_ok_shape xs a w s0 r0 hc hx
  obtain ⟨sy, hys⟩ := FromTrax.callN_ok_shape ys a w s0 r0 hc hy
  rw [hxs, hys, hlen]
  exact ⟨rfl, rfl⟩

/-- Witness for C10 (amended): two different successful one-call runs on
`witB` both leave `Nat.succ^[1] 1 = 2` in the rng cell. -/
theorem C10_rng_input_independence_witness :
    ((FromTrax.callN witB [Nested.leaf (TFValue.other 1)]).cells).map Cells.rng
      = some 2
    ∧ ((FromTrax.callN witB [Nested.leaf (TFValue.other 1)]).cells).map
        Cells.rng
      = ((FromTrax.callN witB [Nested.leaf (TFValue.other 2)]).cells).map
          Cells.rng :=
  C10_rng_input_independence witB (.present 6) 7 1
    [Nested.leaf (TFValue.other 1)] [Nested.leaf (TFValue.other 2)]
    rfl rfl rfl rfl

/-- Counterexample for C10 as stated: on the built adapter `witB` the run
consisting of the single poison input aborts before the rng write, so after
this length-1 run the rng cell still holds 1, not `f^[1] 1 = 2`; a
successful length-1 run does update it to 2, so two equal-length runs with
different inputs leave different rng cells. -/
theorem C10_rng_input_independence_counterexample :
    witAdapter.build shp = some (witB, [5])
    ∧ ((witB.call (Nested.leaf (TFValue.other 0))).2.cells).map Cells.rng
        ≠ some (witB.rng_updater^[1] 1)
    ∧ ((witB.call (Nested.leaf (TFValue.other 0))).2.cells).map Cells.rng
        ≠ ((witB.call (Nested.leaf (TFValue.other 1))).2.cells).map Cells.rng
    := by
  refine ⟨rfl, ?_, ?_⟩ <;> decide

/-- C2: two adapter instances wrapping the same functional layer,
constructed with the same initializer key, forward key, batch override and
dtype (their key updaters may even differ), built with the same input shape
and called with the same inputs, produce identical outputs and identical
new state. -/
theorem C2_build_call_determinism (a1 a2 b1 b2 : FromTrax A D W S R O)
    (sh inputs : Nested (TFValue A)) (ks1 ks2 : List R)
    (hlayer : a2.trax_layer = a1.trax_layer)
    (hbs : a2.batch_size = a1.batch_size)
    (hinit : a2.initializer_rng = a1.initializer_rng)
    (hfwd : a2.forward_rng_init = a1.forward_rng_init)
    (hdt : a2.dtype = a1.dtype)
    (h1 : a1.build sh = some (b1, ks1))
    (h2 : a2.build sh = some (b2, ks2)) :
    (b1.call inputs).1 = (b2.call inputs).1
    ∧ ((b1.call inputs).2.cells).map Cells.state
        = ((b2.call inputs).2.cells).map Cells.state := by
  obtain ⟨l1, bs1, i1, k1, f1, d1, c1⟩ := a1
  obtain ⟨l2, bs2, i2, k2, f2, d2, c2⟩ := a2
  obtain rfl : l2 = l1 := hlayer
  obtain rfl : bs2 = bs1 := hbs
  obtain rfl : i2 = i1 := hinit
  obtain rfl : k2 = k1 := hfwd
  obtain rfl : d2 = d1 := hdt
  rcases FromTrax.build_inv _ _ _ _ h1 with
    ⟨san1, sp1, he1, hs1, ht1, hb1, hk1⟩ | ⟨w1, he1, hb1, hk1⟩ <;>
    rcases FromTrax.build_inv _ _ _ _ h2 with
      ⟨san2, sp2, he2, hs2, ht2, hb2, hk2⟩ | ⟨w2, he2, hb2, hk2⟩
  · obtain rfl : san1 = san2 := Option.some.inj (hs1.symm.trans hs2)
    obtain rfl : sp1 = sp2 := Option.some.inj (ht1.symm.trans ht2)
    subst hb1; subst hb2
    exact FromTrax.call_mk_state _ _ _ _ _ _ _ _ inputs
  · exact absurd (he1.symm.trans he2) (by simp)
  · exact absurd (he2.symm.trans he1) (by simp)
  · subst hb1; subst hb2
    exact FromTrax.call_mk_state _ _ _ _ _ _ _ _ inputs

/-- Witness for C2: `witAdapterP` and `witAdapterP2` differ only in their
key updaters; after building both with `shp`, calling them on the same
input yields the same output and the same state cell. -/
theorem C2_build_call_determinism_witness :
    (witBP.call (Nested.leaf (TFValue.other 1))).1
      = (witBP2.call (Nested.leaf (TFValue.other 1))).1
    ∧ ((witBP.call (Nested.leaf (TFValue.other 1))).2.cells).map Cells.state
      = ((witBP2.call (Nested.leaf (TFValue.other 1))).2.cells).map
          Cells.state :=
  C2_build_call_determinism witAdapterP witAdapterP2 witBP witBP2
    shp (Nested.leaf (TFValue.other 1)) [] [] rfl rfl rfl rfl rfl rfl rfl

/-- C3: on a `build` whose wrapped layer's weights are the uninitialized
sentinel, the key setter is invoked exactly once with the initializer key,
the batch override is substituted into the input shape, and the layer's
`init` is called on the resulting shape/dtype spec to populate the cells;
otherwise the existing weights and state are reused as-is, with no `init`
call and no key-setter invocation (empty invocation trace). -/
theorem C3_build_branching (a : FromTrax A D W S R O)
    (sh sanitized : Nested (TFValue A)) (spec : Nested (ShapeDtype D))
    (w : W) :
    (a.trax_layer.weights = .empty →
      sh.mapOption (fun x => replace_none_batch x a.batch_size)
        = some sanitized →
      tensor_shapes_to_shape_dtypes sanitized a.dtype = some spec →
      a.build sh = some
        ({ a with
             trax_layer := a.trax_layer.set_rng_recursive a.initializer_rng
             cells := some ⟨(a.trax_layer.initFn a.initializer_rng spec).1,
                            (a.trax_layer.initFn a.initializer_rng spec).2,
                            a.forward_rng_init⟩ },
         [a.initializer_rng])) ∧
    (a.trax_layer.weights = .present w →
      a.build sh = some
        ({ a with cells := some ⟨a.trax_layer.weights, a.trax_layer.state,
                                 a.forward_rng_init⟩ },
         [])) :=
  ⟨fun he hs ht => FromTrax.build_empty a sh sanitized spec he hs ht,
   fun he => FromTrax.build_present a sh w he⟩

/-- Witness for C3: both branches evaluated on concrete adapters — the
uninitialized `witAdapter` records exactly one key-setter invocation (with
key 5) and boxes `init`'s results, while `witAdapterP` reuses its existing
weights 3 and state 4 with an empty invocation trace. -/
theorem C3_build_branching_witness :
    witAdapter.build shp = some (witB, [5])
    ∧ witAdapterP.build shp = some (witBP, []) :=
  ⟨(C3_build_branching witAdapter shp shp
      (Nested.leaf ⟨[some 2], 0⟩) 999).1 rfl rfl rfl,
   (C3_build_branching witAdapterP shp shp
      (Nested.leaf ⟨[some 2], 0⟩) 3).2 rfl⟩

/-- C4: `build` is idempotent — a second `build` with the same input shape
returns the very same adapter (in particular the weights and state cells
hold identical values) and the same invocation trace. -/
theorem C4_build_idempotent (a b : FromTrax A D W S R O)
    (sh : Nested (TFValue A)) (ks : List R)
    (h : a.build sh = some (b, ks)) : b.build sh = some (b, ks) := by
  rcases FromTrax.build_inv a b sh ks h with
    ⟨sanitized, spec, he, hs, ht, hb, hk⟩ | ⟨w, he, hb, hk⟩
  · subst hb; subst hk
    exact FromTrax.build_empty _ sh sanitized spec he hs ht
  · subst hb; subst hk
    exact FromTrax.build_present _ sh w he

/-- Witness for C4: rebuilding the concretely built `witB` with the same
shape reproduces `witB` and the same trace. -/
theorem C4_build_idempotent_witness : witB.build shp = some (witB, [5]) :=
  C4_build_idempotent witAdapter witB shp [5] rfl

/-- C5: a `call` mutates at most the state and rng cells — it either leaves
the adapter entirely unchanged (on a raise) or reassigns only those two
cells, preserving the weights cell's value and every other field including
the wrapped layer; and the only field of the wrapped layer that `build`
ever changes is its internal key (the one-time recursive key propagation),
its weights, state, `init` and forward function being preserved. -/
theorem C5_call_frame (a : FromTrax A D W S R O) (i sh : Nested (TFValue A)) :
    ((a.call i).2 = a ∨
      ∃ c s' r', a.cells = some c ∧
        (a.call i).2 = { a with cells := some ⟨c.weights, s', r'⟩ }) ∧
    (∀ b ks, a.build sh = some (b, ks) →
      b.trax_layer.weights = a.trax_layer.weights ∧
      b.trax_layer.state = a.trax_layer.state ∧
      b.trax_layer.initFn = a.trax_layer.initFn ∧
      b.trax_layer.pure_fn = a.trax_layer.pure_fn) := by
  constructor
  · rcases hc : a.cells with _ | c
    · left; simp [FromTrax.call, hc]
    · rcases hj : i.mapOption (fun x => replace_none_batch x a.batch_size)
        with _ | j
      · left; simp [FromTrax.call, hc, hj]
      · rcases hp : a.trax_layer.pure_fn j c.weights c.state c.rng with _ | os
        · left; simp [FromTrax.call, hc, hj, read_values, to_arrays, hp]
        · right
          refine ⟨c, os.2, a.rng_updater c.rng, rfl, ?_⟩
          have hcall := FromTrax.call_success a i j c.weights c.state os.2
            c.rng os.1 hc hj (by rw [hp])
          rw [hcall]
  · intro b ks h
    rcases FromTrax.build_inv a b sh ks h with
      ⟨sanitized, spec, he, hs, ht, hb, hk⟩ | ⟨w, he, hb, hk⟩
    · subst hb; exact ⟨rfl, rfl, rfl, rfl⟩
    · subst hb; exact ⟨rfl, rfl, rfl, rfl⟩

/-- Witness for C5: the build of `witAdapter` into `witB` preserves every
field of the wrapped layer except the propagated key. -/
theorem C5_call_frame_witness :
    witB.trax_layer.weights = witAdapter.trax_layer.weights
    ∧ witB.trax_layer.state = witAdapter.trax_layer.state
    ∧ witB.trax_layer.initFn = witAdapter.trax_layer.initFn
    ∧ witB.trax_layer.pure_fn = witAdapter.trax_layer.pure_fn :=
  (C5_call_frame witAdapter (Nested.leaf (TFValue.other 1)) shp).2
    witB [5] rfl

/-- C7: with a positive batch override `B` configured, a shape (or input)
whose unknown batch dimensions have been explicitly set to `B` behaves
identically under `build` and `call` to the original with unknown batch
dimensions. -/
theorem C7_batch_override_roundtrip (a : FromTrax A D W S R O) (B : Nat)
    (hB : 0 < B) (hbs : a.batch_size = some B) (sh i : Nested (TFValue A)) :
    a.build (Nested.map (withExplicitBatch B) sh) = a.build sh
    ∧ a.call (Nested.map (withExplicitBatch B) i) = a.call i := by
  have key : ∀ n : Nested (TFValue A),
      (Nested.map (withExplicitBatch B) n).mapOption
          (fun x => replace_none_batch x a.batch_size)
        = n.mapOption (fun x => replace_none_batch x a.batch_size) := by
    intro n
    rw [hbs]
    exact Nested.mapOption_map _ _ (replace_none_batch_withExplicitBatch B) n
  constructor
  · unfold FromTrax.build
    rw [key sh]
  · unfold FromTrax.call
    rw [key i]

/-- Witness for C7: on the built adapter `witBB` (override 2), the shape
`[None, 3]` and the shape `[2, 3]` build identically, and a tensor of
static shape `[None, 3]` and one of shape `[2, 3]` call identically. -/
theorem C7_batch_override_roundtrip_witness :
    witBB.build (Nested.leaf (TFValue.tensorShape [some 2, some 3]))
      = witBB.build (Nested.leaf (TFValue.tensorShape [none, some 3]))
    ∧ witBB.call (Nested.leaf (TFValue.tensor [some 2, some 3] 1))
      = witBB.call (Nested.leaf (TFValue.tensor [none, some 3] 1)) :=
  C7_batch_override_roundtrip witBB 2 (by decide) rfl
    (Nested.leaf (TFValue.tensorShape [none, some 3]))
    (Nested.leaf (TFValue.tensor [none, some 3] 1))

/-- C8: a wrapped layer whose `init` legitimately returns the no-weights
sentinel still builds successfully, the weights cell reflecting the
sentinel, and subsequently calls successfully whenever its forward function
does. -/
theorem C8_stateless_tolerated (a : FromTrax A D W S R O)
    (sh sanitized i j : Nested (TFValue A)) (spec : Nested (ShapeDtype D))
    (st s' : S) (o : O)
    (he : a.trax_layer.weights = .empty)
    (hs : sh.mapOption (fun x => replace_none_batch x a.batch_size)
          = some sanitized)
    (ht : tensor_shapes_to_shape_dtypes sanitized a.dtype = some spec)
    (hi : a.trax_layer.initFn a.initializer_rng spec = (.empty, st)) :
    a.build sh = some
      ({ a with
           trax_layer := a.trax_layer.set_rng_recursive a.initializer_rng
           cells := some ⟨.empty, st, a.forward_rng_init⟩ },
       [a.initializer_rng])
    ∧ (i.mapOption (fun x => replace_none_batch x a.batch_size) = some j →
       a.trax_layer.pure_fn j .empty st a.forward_rng_init = some (o, s') →
       ({ a with
            trax_layer := a.trax_layer.set_rng_recursive a.initializer_rng
            cells := some ⟨.empty, st, a.forward_rng_init⟩ }
          : FromTrax A D W S R O).call i
         = (some o,
            { a with
                trax_layer := a.trax_layer.set_rng_recursive a.initializer_rng
                cells := some ⟨.empty, s',
                               a.rng_updater a.forward_rng_init⟩ })) := by
  constructor
  · have h := FromTrax.build_empty a sh sanitized spec he hs ht
    rw [hi] at h
    exact h
  · intro hj hp
    exact FromTrax.call_success _ i j .empty st s' a.forward_rng_init o
      rfl hj hp

/-- Witness for C8: the stateless `witAdapterS` builds into `witBS` with the
sentinel in its weights cell, and a call on it succeeds, producing output 8
and new state 9. -/
theorem C8_stateless_tolerated_witness :
    witAdapterS.build shp = some (witBS, [5])
    ∧ witBS.call (Nested.leaf (TFValue.other 1))
        = (some 8, { witBS with cells := some ⟨.empty, 9, 2⟩ }) :=
  ⟨(C8_stateless_tolerated witAdapterS shp shp (Nested.leaf (TFValue.other 1))
      (Nested.leaf (TFValue.other 1)) (Nested.leaf ⟨[some 2], 0⟩) 7 9 8
      rfl rfl rfl rfl).1,
   (C8_stateless_tolerated witAdapterS shp shp (Nested.leaf (TFValue.other 1))
      (Nested.leaf (TFValue.other 1)) (Nested.leaf ⟨[some 2], 0⟩) 7 9 8
      rfl rfl rfl rfl).2 rfl rfl⟩

end Trax2Keras
